import Mathlib

/-!
Verification of the MVRtoKuma core against its specification.

The definitions below are a shallow embedding of the Python sources:

* `src/tui/merge_mvr.py` — the MVR fixture-merge algorithm (`get_ipv4_network`,
  `get_address`, `address_equals`, `copy_network`, `merger`);
* `src/tui/fixture.py`   — the `KumaFixture` / `KumaTag` actual-state records;
* `src/tui/app.py`       — the reconciliation passes (`run_api_create_tags`,
  `run_api_create_monitors`, `run_api_delete_tags`) modelled as pure functions
  that return the trace of remote calls they would issue.

Machine integers are modelled as `Int`/`Nat` (no overflow is relevant here),
Python `None` as `Option`, Python dictionaries handed to constructors as
explicit optional fields, and exceptions as `Except`/explicit truncation of
the call trace.
-/

namespace MvrKuma

/-- One entry of `fixture.addresses.networks` (pymvr `Network`): an optional
ipv4 string (`None` modelled as `none`). -/
structure Network where
  ipv4 : Option String
deriving DecidableEq, Repr

/-- One entry of `fixture.addresses.addresses` (pymvr `Address`): the DMX
universe and address integers (`dmx_break` is never read by the core). -/
structure DmxAddress where
  uni : Int
  address : Int
deriving DecidableEq, Repr

/-- The `addresses` attribute of a pymvr fixture: a list of networks and a
list of DMX addresses. -/
structure FixtureAddresses where
  networks : List Network
  addresses : List DmxAddress
deriving DecidableEq, Repr

/-- A parsed MVR fixture, with exactly the attributes the core reads:
`uuid`, `name`, `position` / `classing` (uuid keys into the position/class
tag lists, `None` when absent) and `addresses`. -/
structure Fixture where
  uuid : String
  name : String
  position : Option String
  classing : Option String
  addresses : FixtureAddresses
deriving DecidableEq, Repr

/-- Python truthiness of an optional string: `None` and the empty string are
falsy, every other string is truthy. -/
def pyTruthyStr : Option String → Bool
  | none => false
  | some s => !(s == "")

/-- `get_ipv4_network` (merge_mvr.py): return the first network entry whose
`ipv4` attribute is truthy, else `None`. -/
def get_ipv4_network (f : Fixture) : Option Network :=
  f.addresses.networks.find? (fun n => pyTruthyStr n.ipv4)

/-- `get_address` (merge_mvr.py): `for address in fixture.addresses.addresses:
if address: return address`.  A pymvr `Address` object is always truthy, so
this returns the first element when the list is non-empty. -/
def get_address (f : Fixture) : Option DmxAddress :=
  f.addresses.addresses.head?

/-- `address_equals` (merge_mvr.py): equality of the `(address, universe)`
pair. -/
def address_equals (this that : DmxAddress) : Bool :=
  this.address == that.address && this.uni == that.uni

/-- `copy_network` (merge_mvr.py).  When the target has no truthy ipv4
network entry, a copy of the source entry is appended to its `networks`.
When it does have one, the Python body executes
`out_ipv4_network = deepcopy(in_ipv4_network)` — a rebinding of the local
variable that discards the copy — so the target fixture is returned
unchanged. -/
def copy_network (inNet : Network) (outF : Fixture) : Fixture :=
  match get_ipv4_network outF with
  | none =>
      { outF with addresses :=
        { outF.addresses with networks := outF.addresses.networks ++ [inNet] } }
  | some _ => outF

/-- A target fixture paired with an instrumentation counter recording how
many times `copy_network` has been applied to it during a merge.  The
counter is ghost state: it never influences control flow. -/
abbrev TaggedFixture := Fixture × Nat

/-- Does the DMX-address rule of the merge loop fire for source address
`inAddr` against target `t`?  Mirrors the
`if in_address is None or out_address is None: continue` /
`if address_equals(...)` steps. -/
def addr_rule_matches (inAddr : Option DmxAddress) (t : Fixture) : Bool :=
  match inAddr, get_address t with
  | some ia, some oa => address_equals ia oa
  | _, _ => false

/-- The inner `for out_fixture in out_fixtures:` loop of `merger`
(merge_mvr.py) for one source fixture.  `done` is the `done_already` list of
consumed target uuids.  A uuid match copies and `break`s; an address match
copies and falls through to the remaining targets (the source line has no
`break`). -/
def mergeOne (inUuid : String) (inAddr : Option DmxAddress) (inNet : Network) :
    List TaggedFixture → List String → List TaggedFixture × List String
  | [], done => ([], done)
  | (outF, c) :: rest, done =>
      if done.contains outF.uuid then
        let r := mergeOne inUuid inAddr inNet rest done
        ((outF, c) :: r.1, r.2)
      else if inUuid == outF.uuid then
        ((copy_network inNet outF, c + 1) :: rest, done ++ [outF.uuid])
      else if addr_rule_matches inAddr outF then
        let r := mergeOne inUuid inAddr inNet rest (done ++ [outF.uuid])
        ((copy_network inNet outF, c + 1) :: r.1, r.2)
      else
        let r := mergeOne inUuid inAddr inNet rest done
        ((outF, c) :: r.1, r.2)

/-- One iteration of the outer `while in_fixtures:` loop of `merger`: a
source fixture without a truthy ipv4 network is skipped (`continue`),
otherwise its inner loop runs. -/
def mergeStep (inF : Fixture) (st : List TaggedFixture × List String) :
    List TaggedFixture × List String :=
  match get_ipv4_network inF with
  | none => st
  | some inNet => mergeOne inF.uuid (get_address inF) inNet st.1 st.2

/-- The outer loop of `merger` over an already-ordered list of source
fixtures. -/
def mergeAll (ins : List Fixture) (st : List TaggedFixture × List String) :
    List TaggedFixture × List String :=
  ins.foldl (fun st f => mergeStep f st) st

/-- `merger` (merge_mvr.py), restricted to its in-memory effect on the
target fixture list.  `in_fixtures.pop()` consumes the source list from its
end, hence the `reverse`.  The result pairs each target fixture with the
number of times it received network data. -/
def merger (ins outs : List Fixture) : List TaggedFixture :=
  (mergeAll ins.reverse (outs.map (fun f => (f, 0)), [])).1

/-- `KumaFixture` (fixture.py): the snapshot of one remote monitor.  The
constructor reads a response dictionary; a missing key falls back to the
`data.get` default (`""` for `name` and `description`, `0` for `id`).  The
remote `description` field is stored as the fixture `uuid`.  `tags` is the
list of attached tag names. -/
structure KumaFixture where
  name : String
  id : Nat
  uuid : String
  tags : List String
deriving DecidableEq, Repr

/-- `KumaFixture.__init__` applied to a fetched monitor dictionary, with
each optional argument `none` when the key is absent. -/
def KumaFixture.ofData (name : Option String) (id : Option Nat)
    (description : Option String) (tags : List String) : KumaFixture :=
  ⟨name.getD "", id.getD 0, description.getD "", tags⟩

/-- `KumaTag` (fixture.py): the snapshot of one remote tag.  Note that the
class defines only `id` and `name`; it has no `uuid` attribute. -/
structure KumaTag where
  id : Nat
  name : String
deriving DecidableEq, Repr

/-- A desired tag entity from the parsed show file (a pymvr `Class`,
`Position`, or `Layer` used as a tag): it carries a `uuid` and a `name`. -/
structure MvrTag where
  uuid : String
  name : String
deriving DecidableEq, Repr

/-- A layer entry of the imported show data as the app stores it: the layer
tag object plus the fixtures belonging to the layer. -/
structure MvrLayer where
  layer : MvrTag
  fixtures : List Fixture
deriving DecidableEq, Repr

/-! ### Reconciliation operations (app.py), modelled as call traces -/

/-- Outcome of the session-opening prologue shared by every top-level
operation: whether `UptimeKumaApi(self.url, ...)` returned normally and
whether the subsequent `api.login(...)` returned normally. -/
structure LoginOutcome where
  constructed : Bool
  loggedIn : Bool
deriving DecidableEq, Repr

/-- The value of the local variable `api` after the prologue
`api = None; try: api = UptimeKumaApi(...); api.login(...) except ...`.
If the constructor raises, `api` stays `None`; if only `login` raises, the
exception is caught after `api` was already assigned, so `api` keeps the
constructed handle.  `loggedIn` therefore has no influence on the guard
`if not api: return`. -/
def api_after_login (o : LoginOutcome) : Bool := o.constructed

/-- The `delete` flag computed for one actual tag in `run_api_delete_tags`:
start at `False`; in mvr scope, scan the desired tags (classes + positions +
layer tags) and flip to `True` on any name equality; otherwise
unconditionally `True`. -/
def delete_flag (mvr : Bool) (desired : List MvrTag) (tag : KumaTag) : Bool :=
  if mvr then
    desired.foldl (fun d m => if tag.name == m.name then true else d) false
  else true

/-- The trace of `api.delete_tag(tag.id)` calls issued by the loop body of
`run_api_delete_tags`, assuming each remote call returns normally (a raised
call would truncate the trace; the scope decision itself is pure). -/
def delete_tags_calls (mvr : Bool) (kuma_tags : List KumaTag)
    (desired : List MvrTag) : List Nat :=
  kuma_tags.filterMap (fun tag =>
    if delete_flag mvr desired tag then some tag.id else none)

/-- `run_api_delete_tags` (app.py): the session prologue followed by the
`if not api: return` guard and the deletion loop over the actual tags; the
desired list is `mvr_classes + mvr_positions + [layer.layer for layer in
mvr_fixtures]`. -/
def run_api_delete_tags (o : LoginOutcome) (mvr : Bool)
    (kuma_tags : List KumaTag) (mvr_classes mvr_positions : List MvrTag)
    (mvr_fixtures : List MvrLayer) : List Nat :=
  if api_after_login o = false then []
  else delete_tags_calls mvr kuma_tags
    (mvr_classes ++ mvr_positions ++ mvr_fixtures.map (fun l => l.layer))

/-- The `add` flag computed for one desired tag in `run_api_create_tags`:
`add = True`, then for each actual tag evaluate
`tag.name == kuma_tag.name or tag.uuid == kuma_tag.uuid`.  When the names
are equal the `or` short-circuits and `add` becomes `False`; when they
differ, `kuma_tag.uuid` is evaluated — but `KumaTag` (fixture.py) defines
no `uuid` attribute, so the access raises `AttributeError`, modelled as
`Except.error`. -/
def create_tag_add_flag (t : MvrTag) : List KumaTag → Bool → Except Unit Bool
  | [], add => .ok add
  | k :: rest, _ =>
    if t.name == k.name then create_tag_add_flag t rest false
    else .error ()

/-- The loop of `run_api_create_tags` over the desired tags, returning the
names passed to `api.add_tag`.  The `AttributeError` from
`create_tag_add_flag` propagates to the surrounding `except` handler and
ends the loop, leaving the calls issued so far.  The argument `add` of the
flag starts as `True` for each desired tag. -/
def create_tags_go (ks : List KumaTag) : List MvrTag → List String → List String
  | [], acc => acc
  | t :: rest, acc =>
    match create_tag_add_flag t ks true with
    | .error _ => acc
    | .ok add => create_tags_go ks rest (if add then acc ++ [t.name] else acc)

/-- `run_api_create_tags` (app.py): session prologue, guard, then the
creation loop over `mvr_classes + mvr_positions + [layer.layer for layer in
mvr_fixtures]` checked against the actual tags. -/
def run_api_create_tags (o : LoginOutcome) (kuma_tags : List KumaTag)
    (mvr_classes mvr_positions : List MvrTag)
    (mvr_fixtures : List MvrLayer) : List String :=
  if api_after_login o = false then []
  else create_tags_go kuma_tags
    (mvr_classes ++ mvr_positions ++ mvr_fixtures.map (fun l => l.layer)) []

/-- Re-fetching the actual tag set after a run of `run_api_create_tags`:
the previous tags plus one `KumaTag` per issued creation call, carrying the
created name and a remote-assigned id. -/
def refetch_tags (ks : List KumaTag) (created : List String)
    (fresh : String → Nat) : List KumaTag :=
  ks ++ created.map (fun n => ⟨fresh n, n⟩)

/-- The url resolution at the top of the fixture loop in
`run_api_create_monitors`: the first network entry whose `ipv4` attribute
`is not None` supplies the url (note: `is not None`, not truthiness — an
empty string is accepted here). -/
def resolve_url (f : Fixture) : Option String :=
  (f.addresses.networks.find? (fun n => n.ipv4.isSome)).bind (fun n => n.ipv4)

/-- The identity-lookup outcome for one desired fixture in
`run_api_create_monitors`: scan the actual monitors for the first whose
`uuid` (the fetched `description` field) equals the fixture uuid.  On a hit
`add_monitor` is `False` and the monitor id and current tag-name list are
taken as the baseline; otherwise a creation is required. -/
structure MonitorDecision where
  add_monitor : Bool
  monitor_id : Option Nat
  monitor_tags : List String
deriving DecidableEq, Repr

/-- The `for kuma_fixture in self.kuma_fixtures: ... break` lookup loop. -/
def monitor_decision (kuma_fixtures : List KumaFixture) (f : Fixture) :
    MonitorDecision :=
  match kuma_fixtures.find? (fun kf => f.uuid == kf.uuid) with
  | some kf => ⟨false, some kf.id, kf.tags⟩
  | none => ⟨true, none, []⟩

/-- One `api.add_monitor` call: the fixture name, the resolved IPv4 url as
hostname, and the fixture uuid stored in the `description` field. -/
structure MonitorCreate where
  name : String
  hostname : String
  description : String
deriving DecidableEq, Repr

/-- The creation call issued (or not) for one desired fixture: skip when no
network entry has a non-`None` ipv4, skip when the identity lookup finds an
actual monitor, otherwise create. -/
def monitor_call_for (kuma_fixtures : List KumaFixture) (f : Fixture) :
    Option MonitorCreate :=
  match resolve_url f with
  | none => none
  | some url =>
    if (monitor_decision kuma_fixtures f).add_monitor then
      some ⟨f.name, url, f.uuid⟩
    else none

/-- The trace of `api.add_monitor` calls of `run_api_create_monitors`: the
nested `for layer in self.mvr_fixtures: for mvr_fixture in layer.fixtures`
loops, with the per-fixture skip/lookup/create logic.  The actual-monitor
snapshot `kuma_fixtures` is not refreshed during the run, so the decisions
are independent per fixture. -/
def create_monitor_calls (mvr_fixtures : List MvrLayer)
    (kuma_fixtures : List KumaFixture) : List MonitorCreate :=
  ((mvr_fixtures.map (fun l => l.fixtures)).flatten).filterMap
    (monitor_call_for kuma_fixtures)

/-- Re-fetching one created monitor: the remote echoes the stored fields
back, and `KumaFixture.__init__` turns the `description` into the `uuid`;
a fresh monitor carries no tags.  `idOf` stands for the remote-assigned
monitor id. -/
def refetched_monitor (idOf : MonitorCreate → Nat) (c : MonitorCreate) :
    KumaFixture :=
  KumaFixture.ofData (some c.name) (some (idOf c)) (some c.description) []

/-- `is_in_classes` / `is_in_positions` (app.py): return the uuid of the
first desired tag with the given name, else `None`. -/
def is_in_tag_list (tags : List MvrTag) (name : String) : Option String :=
  match tags.find? (fun m => m.name == name) with
  | some m => some m.uuid
  | none => none

/-- Python truthiness of the `add_tag` variable (an optional tag id):
`None` and `0` are falsy. -/
def pyTruthyNat : Option Nat → Bool
  | none => false
  | some n => !(n == 0)

/-- State threaded through the three tag-attachment passes of
`run_api_create_monitors` for one fixture: the in-memory `monitor_tags`
name list, the `add_tag` variable, the number of `api.add_monitor_tag`
attempts so far (used to index the success oracle), and the trace of actual
tags for which an attachment call was attempted. -/
structure TagPassState where
  monitor_tags : List String
  add_tag : Option Nat
  attempts : Nat
  calls : List KumaTag
deriving DecidableEq, Repr

/-- One iteration of a tag-attachment pass over one actual tag `kt`:
under the category toggle, a category match whose name is not yet in
`monitor_tags` appends the name and sets `add_tag`; then, whenever
`add_tag` is truthy, `api.add_monitor_tag(monitor_id, kuma_tag.id)` is
attempted for the *current* tag.  If the call returns normally
(`ok` at the current attempt index) `add_tag` is reset to `None`; if it
raises, the exception is caught and `add_tag` keeps its stale value. -/
def tag_pass_step (toggle : Bool) (matcher : KumaTag → Bool)
    (ok : Nat → Bool) (s : TagPassState) (kt : KumaTag) : TagPassState :=
  if toggle then
    let s1 :=
      if matcher kt then
        if s.monitor_tags.contains kt.name then s
        else { s with monitor_tags := s.monitor_tags ++ [kt.name],
                      add_tag := some kt.id }
      else s
    if pyTruthyNat s1.add_tag then
      if ok s1.attempts then
        { s1 with attempts := s1.attempts + 1, calls := s1.calls ++ [kt],
                  add_tag := none }
      else
        { s1 with attempts := s1.attempts + 1, calls := s1.calls ++ [kt] }
    else s1
  else s

/-- One full pass (`for kuma_tag in self.kuma_tags: ...`). -/
def tag_pass (toggle : Bool) (matcher : KumaTag → Bool) (ok : Nat → Bool)
    (kts : List KumaTag) (s : TagPassState) : TagPassState :=
  kts.foldl (tag_pass_step toggle matcher ok) s

/-- The three tag-attachment passes of `run_api_create_monitors` for one
fixture with baseline tag names `tags0` (`monitor_tags`): the layer pass
matches actual tag names against the layer name, the position and class
passes match `is_in_positions` / `is_in_classes` lookups against the
fixture keys (Python `==`, where `None == None` holds).  `add_tag` is reset
to `None` between the passes, as in the source. -/
def run_tag_passes (layersT positionsT classesT : Bool) (layer_name : String)
    (mvr_positions mvr_classes : List MvrTag) (fpos fcls : Option String)
    (kuma_tags : List KumaTag) (ok : Nat → Bool) (tags0 : List String) :
    TagPassState :=
  let s0 : TagPassState := ⟨tags0, none, 0, []⟩
  let s1 := tag_pass layersT (fun kt => kt.name == layer_name) ok kuma_tags s0
  let s2 := tag_pass positionsT
    (fun kt => is_in_tag_list mvr_positions kt.name == fpos) ok kuma_tags
    { s1 with add_tag := none }
  let s3 := tag_pass classesT
    (fun kt => is_in_tag_list mvr_classes kt.name == fcls) ok kuma_tags
    { s2 with add_tag := none }
  s3

/-! ### Supporting lemmas about the merge loop -/

@[simp]
theorem copy_network_uuid (n : Network) (f : Fixture) :
    (copy_network n f).uuid = f.uuid := by
  unfold copy_network
  cases get_ipv4_network f <;> rfl

/-- Every target whose counter is positive has already had its uuid recorded
in `done_already`. -/
def InvCount (l : List TaggedFixture) (done : List String) : Prop :=
  ∀ p ∈ l, 1 ≤ p.2 → p.1.uuid ∈ done

theorem mergeOne_done_mono (iu : String) (ia : Option DmxAddress) (n : Network) :
    ∀ (outs : List TaggedFixture) (done : List String) (u : String),
      u ∈ done → u ∈ (mergeOne iu ia n outs done).2 := by
  intro outs
  induction outs with
  | nil => intro done u hu; simpa [mergeOne] using hu
  | cons p rest ih =>
    intro done u hu
    obtain ⟨outF, c⟩ := p
    simp only [mergeOne]
    split
    · exact ih done u hu
    · split
      · simp [hu]
      · split
        · exact ih _ u (by simp [hu])
        · exact ih done u hu

theorem mergeOne_inv_bound (iu : String) (ia : Option DmxAddress) (n : Network) :
    ∀ (outs : List TaggedFixture) (done : List String),
      InvCount outs done → (∀ p ∈ outs, p.2 ≤ 1) →
      InvCount (mergeOne iu ia n outs done).1 (mergeOne iu ia n outs done).2 ∧
        (∀ p ∈ (mergeOne iu ia n outs done).1, p.2 ≤ 1) := by
  intro outs
  induction outs with
  | nil =>
    intro done _ _
    constructor
    · intro p hp; simp [mergeOne] at hp
    · intro p hp; simp [mergeOne] at hp
  | cons q rest ih =>
    intro done hinv hbnd
    obtain ⟨outF, c⟩ := q
    have hinv_rest : InvCount rest done := fun p hp => hinv p (by simp [hp])
    have hbnd_rest : ∀ p ∈ rest, p.2 ≤ 1 := fun p hp => hbnd p (by simp [hp])
    simp only [mergeOne]
    split
    · -- target already consumed: skipped
      rename_i hdone
      obtain ⟨ih1, ih2⟩ := ih done hinv_rest hbnd_rest
      constructor
      · intro p hp
        rcases List.mem_cons.mp hp with h | h
        · subst h
          intro hc
          exact mergeOne_done_mono iu ia n rest done _
            (hinv (outF, c) (by simp) hc)
        · exact ih1 p h
      · intro p hp
        rcases List.mem_cons.mp hp with h | h
        · subst h; exact hbnd (outF, c) (by simp)
        · exact ih2 p h
    · rename_i hdone
      have hnotmem : outF.uuid ∉ done := by
        intro hmem
        simp [List.contains, List.elem_iff] at hdone
        exact hdone hmem
      have hczero : c = 0 := by
        by_contra hc
        exact hnotmem (hinv (outF, c) (by simp) (Nat.one_le_iff_ne_zero.mpr hc))
      split
      · -- uuid match, break
        constructor
        · intro p hp
          rcases List.mem_cons.mp hp with h | h
          · subst h; intro _; simp
          · intro hc
            exact List.mem_append_left _ (hinv_rest p h hc)
        · intro p hp
          rcases List.mem_cons.mp hp with h | h
          · subst h; simp [hczero]
          · exact hbnd_rest p h
      · split
        · -- address match, no break
          have hinv_rest2 : InvCount rest (done ++ [outF.uuid]) :=
            fun p hp hc => List.mem_append_left _ (hinv_rest p hp hc)
          obtain ⟨ih1, ih2⟩ := ih (done ++ [outF.uuid]) hinv_rest2 hbnd_rest
          constructor
          · intro p hp
            rcases List.mem_cons.mp hp with h | h
            · subst h
              intro _
              exact mergeOne_done_mono iu ia n rest (done ++ [outF.uuid]) _
                (by simp)
            · exact ih1 p h
          · intro p hp
            rcases List.mem_cons.mp hp with h | h
            · subst h; simp [hczero]
            · exact ih2 p h
        · -- no match
          obtain ⟨ih1, ih2⟩ := ih done hinv_rest hbnd_rest
          constructor
          · intro p hp
            rcases List.mem_cons.mp hp with h | h
            · subst h
              intro hc
              exact mergeOne_done_mono iu ia n rest done _
                (hinv (outF, c) (by simp) hc)
            · exact ih1 p h
          · intro p hp
            rcases List.mem_cons.mp hp with h | h
            · subst h; exact hbnd (outF, c) (by simp)
            · exact ih2 p h

theorem mergeAll_inv_bound (ins : List Fixture) :
    ∀ (st : List TaggedFixture × List String),
      InvCount st.1 st.2 → (∀ p ∈ st.1, p.2 ≤ 1) →
      InvCount (mergeAll ins st).1 (mergeAll ins st).2 ∧
        (∀ p ∈ (mergeAll ins st).1, p.2 ≤ 1) := by
  induction ins with
  | nil => intro st h1 h2; exact ⟨h1, h2⟩
  | cons f rest ih =>
    intro st h1 h2
    have hstep : InvCount (mergeStep f st).1 (mergeStep f st).2 ∧
        (∀ p ∈ (mergeStep f st).1, p.2 ≤ 1) := by
      unfold mergeStep
      cases hn : get_ipv4_network f with
      | none => exact ⟨h1, h2⟩
      | some inNet => exact mergeOne_inv_bound _ _ _ st.1 st.2 h1 h2
    have : mergeAll (f :: rest) st = mergeAll rest (mergeStep f st) := by
      simp [mergeAll]
    rw [this]
    exact ih (mergeStep f st) hstep.1 hstep.2

/-- The inner loop leaves a prefix of non-matching targets untouched (with
`done_already` still empty) and consumes the first uuid-matching target with
a `break`, so everything after it is returned unchanged. -/
theorem mergeOne_skip_prefix (iu : String) (ia : Option DmxAddress) (n : Network) :
    ∀ (pre : List TaggedFixture) (Tu : TaggedFixture) (post : List TaggedFixture),
      (∀ p ∈ pre, (iu == p.1.uuid) = false ∧ addr_rule_matches ia p.1 = false) →
      (iu == Tu.1.uuid) = true →
      mergeOne iu ia n (pre ++ Tu :: post) [] =
        (pre ++ (copy_network n Tu.1, Tu.2 + 1) :: post, [Tu.1.uuid]) := by
  intro pre
  induction pre with
  | nil =>
    intro Tu post _ hu
    obtain ⟨tf, tc⟩ := Tu
    simp only [List.nil_append, mergeOne, List.contains, List.elem_nil]
    simp [hu]
  | cons q rest ih =>
    intro Tu post hpre hu
    obtain ⟨outF, c⟩ := q
    have hq := hpre (outF, c) (by simp)
    have hrest : ∀ p ∈ rest, (iu == p.1.uuid) = false ∧
        addr_rule_matches ia p.1 = false :=
      fun p hp => hpre p (by simp [hp])
    simp only [List.cons_append, mergeOne, List.contains, List.elem_nil,
      List.append_eq]
    simp only [hq.1, hq.2, if_false, Bool.false_eq_true]
    rw [ih Tu post hrest hu]

/-! ### Claim theorems for the merge engine -/

/-- Claim C2 — at-most-once target consumption: for every pair of
source/target fixture lists, no target fixture receives network data (an
application of `copy_network`) more than once during a merge; in particular
no target receives data from more than one source fixture, and once matched
it is effectively skipped for all subsequent source fixtures. -/
theorem claim_C2_at_most_once (ins outs : List Fixture) :
    ∀ p ∈ merger ins outs, p.2 ≤ 1 := by
  have h0 : InvCount (outs.map (fun f => (f, 0))) [] := by
    intro p hp hc
    simp only [List.mem_map] at hp
    obtain ⟨f, _, rfl⟩ := hp
    simp at hc
  have h1 : ∀ p ∈ outs.map (fun f => (f, 0)), p.2 ≤ 1 := by
    intro p hp
    simp only [List.mem_map] at hp
    obtain ⟨f, _, rfl⟩ := hp
    simp
  exact (mergeAll_inv_bound ins.reverse (outs.map (fun f => (f, 0)), []) h0 h1).2

/-- Witness for `claim_C2_at_most_once`: two source fixtures both address
1/5; the single matching target receives network data exactly once (from
the last-imported source, consumed first by `pop`). -/
theorem claim_C2_at_most_once_witness :
    ((⟨"B", "tgt", none, none, ⟨[⟨some "10.0.0.8"⟩], [⟨1, 5⟩]⟩⟩, 1) :
        TaggedFixture) ∈
      merger [⟨"A", "s1", none, none, ⟨[⟨some "10.0.0.9"⟩], [⟨1, 5⟩]⟩⟩,
              ⟨"C", "s2", none, none, ⟨[⟨some "10.0.0.8"⟩], [⟨1, 5⟩]⟩⟩]
        [⟨"B", "tgt", none, none, ⟨[], [⟨1, 5⟩]⟩⟩] ∧
    ((⟨"B", "tgt", none, none, ⟨[⟨some "10.0.0.8"⟩], [⟨1, 5⟩]⟩⟩, 1) :
        TaggedFixture).2 ≤ 1 :=
  ⟨by decide, claim_C2_at_most_once
    [⟨"A", "s1", none, none, ⟨[⟨some "10.0.0.9"⟩], [⟨1, 5⟩]⟩⟩,
     ⟨"C", "s2", none, none, ⟨[⟨some "10.0.0.8"⟩], [⟨1, 5⟩]⟩⟩]
    [⟨"B", "tgt", none, none, ⟨[], [⟨1, 5⟩]⟩⟩] _ (by decide)⟩

/-- Claim C1, counterexample: one source fixture (uuid "A", DMX 1/5, ipv4
10.0.0.9) matches the first target by DMX address only and the second
target by uuid.  The claim says the address-only target is left unmatched
regardless of target order; in fact, when the address-only target comes
first, it receives the network data as well (both counters end at 1),
because the address branch of the inner loop carries no `break` and the
scan reaches the uuid target only afterwards. -/
theorem claim_C1_counterexample :
    (merger [⟨"A", "src", none, none, ⟨[⟨some "10.0.0.9"⟩], [⟨1, 5⟩]⟩⟩]
      [⟨"B", "addr-only", none, none, ⟨[], [⟨1, 5⟩]⟩⟩,
       ⟨"A", "uuid-match", none, none, ⟨[], []⟩⟩]).map Prod.snd = [1, 1] := by
  rfl

/-- Claim C1, amended — merge priority ordering holds provided the
uuid-matching target precedes the address-only target: for a source fixture
with an IPv4 network whose uuid matches target `Tu`, if no earlier target in
the list matches the source by uuid or by DMX address, then `Tu` receives
the network data exactly once and every other target — in particular an
address-only match placed after `Tu` — receives nothing. -/
theorem claim_C1_amended (S : Fixture) (n : Network) (Tu : Fixture)
    (pre post : List Fixture)
    (hnet : get_ipv4_network S = some n)
    (hu : (S.uuid == Tu.uuid) = true)
    (hpre : ∀ t ∈ pre, (S.uuid == t.uuid) = false ∧
      addr_rule_matches (get_address S) t = false) :
    merger [S] (pre ++ Tu :: post) =
      pre.map (fun f => (f, 0)) ++
        (copy_network n Tu, 1) :: post.map (fun f => (f, 0)) := by
  have hstep : merger [S] (pre ++ Tu :: post) =
      (mergeOne S.uuid (get_address S) n
        ((pre ++ Tu :: post).map (fun f => (f, 0))) []).1 := by
    unfold merger mergeAll
    simp only [List.reverse_cons, List.reverse_nil, List.nil_append,
      List.foldl_cons, List.foldl_nil]
    unfold mergeStep
    rw [hnet]
  have hmap : (pre ++ Tu :: post).map (fun f => (f, 0)) =
      pre.map (fun f => (f, 0)) ++ (Tu, 0) :: post.map (fun f => (f, 0)) := by
    simp
  have hpre2 : ∀ p ∈ pre.map (fun f => (f, (0 : Nat))),
      (S.uuid == p.1.uuid) = false ∧
        addr_rule_matches (get_address S) p.1 = false := by
    intro p hp
    simp only [List.mem_map] at hp
    obtain ⟨f, hf, rfl⟩ := hp
    exact hpre f hf
  rw [hstep, hmap, mergeOne_skip_prefix S.uuid (get_address S) n
    (pre.map (fun f => (f, 0))) (Tu, 0) (post.map (fun f => (f, 0))) hpre2 hu]

/-- Witness for `claim_C1_amended` at a concrete input: source uuid "A"
addressed 1/5, one non-matching target ahead of the uuid target, the
address-only target behind it; the uuid target receives the data, the other
two receive nothing. -/
theorem claim_C1_amended_witness :
    get_ipv4_network ⟨"A", "src", none, none, ⟨[⟨some "10.0.0.9"⟩], [⟨1, 5⟩]⟩⟩
        = some ⟨some "10.0.0.9"⟩ ∧
    merger [⟨"A", "src", none, none, ⟨[⟨some "10.0.0.9"⟩], [⟨1, 5⟩]⟩⟩]
        [⟨"C", "other", none, none, ⟨[], [⟨2, 9⟩]⟩⟩,
         ⟨"A", "uuid-match", none, none, ⟨[], []⟩⟩,
         ⟨"B", "addr-only", none, none, ⟨[], [⟨1, 5⟩]⟩⟩] =
      [(⟨"C", "other", none, none, ⟨[], [⟨2, 9⟩]⟩⟩, 0),
       (⟨"A", "uuid-match", none, none, ⟨[⟨some "10.0.0.9"⟩], []⟩⟩, 1),
       (⟨"B", "addr-only", none, none, ⟨[], [⟨1, 5⟩]⟩⟩, 0)] := by
  refine ⟨rfl, ?_⟩
  have h := claim_C1_amended
    ⟨"A", "src", none, none, ⟨[⟨some "10.0.0.9"⟩], [⟨1, 5⟩]⟩⟩
    ⟨some "10.0.0.9"⟩
    ⟨"A", "uuid-match", none, none, ⟨[], []⟩⟩
    [⟨"C", "other", none, none, ⟨[], [⟨2, 9⟩]⟩⟩]
    [⟨"B", "addr-only", none, none, ⟨[], [⟨1, 5⟩]⟩⟩]
    rfl rfl (by decide)
  simpa using h

/-- Claim C3 — network copy semantics, code-bug record: the claim says that
when the matched target already has an IPv4 network entry, that entry is
replaced by a copy of the source entry.  In `copy_network` the replacement
branch executes `out_ipv4_network = deepcopy(in_ipv4_network)`, which merely
rebinds a local name: the target fixture is left completely unchanged, and
in particular its network list is not the claimed singleton copy of the
source entry. -/
theorem claim_C3_code_bug :
    copy_network ⟨some "10.0.0.5"⟩
        ⟨"T", "tgt", none, none, ⟨[⟨some "10.0.0.1"⟩], []⟩⟩ =
      ⟨"T", "tgt", none, none, ⟨[⟨some "10.0.0.1"⟩], []⟩⟩ ∧
    (⟨"T", "tgt", none, none, ⟨[⟨some "10.0.0.1"⟩], []⟩⟩ : Fixture).addresses.networks ≠
      [⟨some "10.0.0.5"⟩] := by
  exact ⟨rfl, by decide⟩

/-- Claim C8 — no-network skip: a source fixture without a truthy IPv4
network entry causes no mutation at all: the merge of any source list
containing it equals the merge of the same list with it removed, for every
target list, so it neither touches a target nor blocks any other source
fixture from matching. -/
theorem claim_C8_no_network_skip (S : Fixture)
    (h : get_ipv4_network S = none) :
    ∀ (ins1 ins2 outs : List Fixture),
      merger (ins1 ++ S :: ins2) outs = merger (ins1 ++ ins2) outs := by
  intro ins1 ins2 outs
  unfold merger mergeAll
  have hstep : ∀ st : List TaggedFixture × List String, mergeStep S st = st := by
    intro st; unfold mergeStep; rw [h]
  simp [List.reverse_append, List.foldl_append, hstep]

/-! ### Supporting lemmas about the reconciliation traces -/

theorem foldl_flag_eq_any (p : MvrTag → Bool) :
    ∀ (l : List MvrTag) (b : Bool),
      l.foldl (fun d m => if p m then true else d) b = (b || l.any p) := by
  intro l
  induction l with
  | nil => intro b; simp
  | cons a rest ih =>
    intro b
    simp only [List.foldl_cons, List.any_cons]
    rw [ih]
    cases hp : p a <;> simp

theorem delete_flag_eq_any (desired : List MvrTag) (tag : KumaTag) :
    delete_flag true desired tag = desired.any (fun m => tag.name == m.name) := by
  unfold delete_flag
  rw [if_pos rfl, foldl_flag_eq_any]
  simp

theorem filterMap_ite {α β : Type} (p : α → Bool) (g : α → β) (l : List α) :
    l.filterMap (fun a => if p a then some (g a) else none) =
      (l.filter p).map g := by
  induction l with
  | nil => rfl
  | cons a rest ih =>
    simp only [List.filterMap_cons, List.filter_cons]
    cases hp : p a <;> simp [ih]

theorem create_tag_add_flag_false_acc (t : MvrTag) :
    ∀ ks : List KumaTag, create_tag_add_flag t ks false ≠ .ok true := by
  intro ks
  induction ks with
  | nil => simp [create_tag_add_flag]
  | cons k rest ih =>
    simp only [create_tag_add_flag]
    split
    · exact ih
    · simp

theorem create_tag_add_flag_ne_ok_true (t : MvrTag) (k : KumaTag)
    (rest : List KumaTag) :
    ∀ b, create_tag_add_flag t (k :: rest) b ≠ .ok true := by
  intro b
  simp only [create_tag_add_flag]
  split
  · exact create_tag_add_flag_false_acc t rest
  · simp

theorem create_tags_go_of_actual_ne_nil (k : KumaTag) (rest : List KumaTag) :
    ∀ (desired : List MvrTag) (acc : List String),
      create_tags_go (k :: rest) desired acc = acc := by
  intro desired
  induction desired with
  | nil => intro acc; rfl
  | cons t ds ih =>
    intro acc
    simp only [create_tags_go]
    cases hf : create_tag_add_flag t (k :: rest) true with
    | error e => rfl
    | ok add =>
      cases add with
      | true => exact absurd hf (create_tag_add_flag_ne_ok_true t k rest true)
      | false => simpa using ih acc

theorem create_tags_go_of_actual_nil :
    ∀ (desired : List MvrTag) (acc : List String),
      create_tags_go [] desired acc = acc ++ desired.map (fun t => t.name) := by
  intro desired
  induction desired with
  | nil => intro acc; simp [create_tags_go]
  | cons t ds ih =>
    intro acc
    simp only [create_tags_go, create_tag_add_flag, List.map_cons]
    rw [ih]
    simp

theorem monitor_decision_found (kfs : List KumaFixture) (f : Fixture)
    (h : ∃ kf, kf ∈ kfs ∧ (f.uuid == kf.uuid) = true) :
    (monitor_decision kfs f).add_monitor = false := by
  unfold monitor_decision
  cases hfind : kfs.find? (fun kf => f.uuid == kf.uuid) with
  | none =>
    rw [List.find?_eq_none] at hfind
    obtain ⟨kf, hkf, hb⟩ := h
    exact absurd hb (by simpa using hfind kf hkf)
  | some kf => rfl

theorem monitor_call_for_of_found (kfs : List KumaFixture) (f : Fixture)
    (h : ∃ kf, kf ∈ kfs ∧ (f.uuid == kf.uuid) = true) :
    monitor_call_for kfs f = none := by
  unfold monitor_call_for
  cases hr : resolve_url f with
  | none => rfl
  | some url => simp [monitor_decision_found kfs f h]

theorem monitor_decision_notfound (kfs : List KumaFixture) (f : Fixture)
    (h : ∀ kf ∈ kfs, (f.uuid == kf.uuid) = false) :
    monitor_decision kfs f = ⟨true, none, []⟩ := by
  unfold monitor_decision
  rw [List.find?_eq_none.mpr (by intro x hx; simp [h x hx])]

/-! ### Claim theorems for the reconciliation engine -/

/-- Claim C4 — ensureTagsExist idempotence: a second, identical run of
`run_api_create_tags` against the actual-tag set resulting from the first
run issues zero tag-creation calls, for every desired-tag input and every
starting actual set.  (The embedding is faithful to the source detail that
the comparison `tag.uuid == kuma_tag.uuid` raises `AttributeError` on any
name mismatch, because `KumaTag` has no `uuid` attribute; zero second-run
creation calls are issued on every path regardless.) -/
theorem claim_C4_idempotent (kuma_tags : List KumaTag)
    (cs ps : List MvrTag) (ls : List MvrLayer) (fresh : String → Nat) :
    run_api_create_tags ⟨true, true⟩
      (refetch_tags kuma_tags
        (run_api_create_tags ⟨true, true⟩ kuma_tags cs ps ls) fresh)
      cs ps ls = [] := by
  have hrun : ∀ ks : List KumaTag,
      run_api_create_tags ⟨true, true⟩ ks cs ps ls =
        create_tags_go ks (cs ++ ps ++ ls.map (fun l => l.layer)) [] := by
    intro ks; rfl
  rw [hrun]
  cases hks2 : refetch_tags kuma_tags
      (run_api_create_tags ⟨true, true⟩ kuma_tags cs ps ls) fresh with
  | cons k rest => exact create_tags_go_of_actual_ne_nil k rest _ []
  | nil =>
    unfold refetch_tags at hks2
    have h1 : kuma_tags = [] := by
      cases kuma_tags with
      | nil => rfl
      | cons a l => simp at hks2
    subst h1
    rw [hrun] at hks2
    simp only [List.nil_append, create_tags_go_of_actual_nil, List.map_eq_nil_iff,
      List.nil_append] at hks2
    rw [hks2]
    rfl

/-- Claim C5 — identity bridge round-trip: monitor creation stores the
fixture uuid in the `description` field; a re-fetch turns it back into the
monitor `uuid`, so reconciling the same desired state again against the
enlarged actual set issues zero monitor-creation calls, whatever the
remote-assigned ids. -/
theorem claim_C5_round_trip (mvr_fixtures : List MvrLayer)
    (kfs : List KumaFixture) (idOf : MonitorCreate → Nat) :
    create_monitor_calls mvr_fixtures
      (kfs ++ (create_monitor_calls mvr_fixtures kfs).map
        (refetched_monitor idOf)) = [] := by
  unfold create_monitor_calls
  rw [List.filterMap_eq_nil_iff]
  intro f hf
  by_cases hexists : ∃ kf, kf ∈ kfs ∧ (f.uuid == kf.uuid) = true
  · obtain ⟨kf, hkf, hb⟩ := hexists
    exact monitor_call_for_of_found _ f ⟨kf, List.mem_append_left _ hkf, hb⟩
  · push_neg at hexists
    have hnone : ∀ kf ∈ kfs, (f.uuid == kf.uuid) = false := by
      intro kf hkf
      simpa using hexists kf hkf
    cases hr : resolve_url f with
    | none =>
      unfold monitor_call_for
      rw [hr]
    | some url =>
      have hc : (⟨f.name, url, f.uuid⟩ : MonitorCreate) ∈
          create_monitor_calls mvr_fixtures kfs := by
        unfold create_monitor_calls
        rw [List.mem_filterMap]
        refine ⟨f, hf, ?_⟩
        unfold monitor_call_for
        rw [hr, monitor_decision_notfound kfs f hnone]
        rfl
      apply monitor_call_for_of_found
      refine ⟨refetched_monitor idOf ⟨f.name, url, f.uuid⟩,
        List.mem_append_right _ (List.mem_map_of_mem _ hc), ?_⟩
      simp [refetched_monitor, KumaFixture.ofData]

/-- Claim C6, code-bug record — tag attachment non-duplication fails when
an attachment call raises: with actual tags `[(1, "LayerX"), (2, "Already")]`,
layer name "LayerX", and baseline monitor tags `["Already"]`, the first
attachment attempt (for "LayerX") fails, the exception handler leaves
`add_tag` set, and the next loop iteration therefore attempts an attachment
call for the tag "Already" — whose name is already in the monitor's tag
list, exactly what the claim rules out.  (With no failing calls the claim's
property does hold; the reset of `add_tag` sits inside the `try`, so a
raised call leaks the stale value into the next iteration.) -/
theorem claim_C6_code_bug :
    (run_tag_passes true false false "LayerX" [] [] none none
        [⟨1, "LayerX"⟩, ⟨2, "Already"⟩] (fun n => !(n == 0)) ["Already"]).calls =
      [⟨1, "LayerX"⟩, ⟨2, "Already"⟩] ∧
    ((run_tag_passes true false false "LayerX" [] [] none none
        [⟨1, "LayerX"⟩, ⟨2, "Already"⟩] (fun n => !(n == 0)) ["Already"]).calls.any
      (fun kt => (["Already"] : List String).contains kt.name)) = true :=
  ⟨rfl, rfl⟩

/-- Claim C7 — scoped deletion precision: in mvr scope (the spec's
ReferencedByDesiredState), the delete trace of a successfully-logged-in
`run_api_delete_tags` run consists of exactly the ids of the actual tags
whose name equals the name of some desired tag (class, position, or layer),
in actual-list order; on the literal input of the claim, exactly the tags
named "Stage" and "FOH" are deleted and "Unrelated" is not. -/
theorem claim_C7_scoped_deletion :
    (∀ (kts : List KumaTag) (cs ps : List MvrTag) (ls : List MvrLayer),
      run_api_delete_tags ⟨true, true⟩ true kts cs ps ls =
        (kts.filter (fun t => (cs ++ ps ++ ls.map (fun l => l.layer)).any
          (fun m => t.name == m.name))).map (fun t => t.id)) ∧
    run_api_delete_tags ⟨true, true⟩ true
      [⟨1, "Stage"⟩, ⟨2, "FOH"⟩, ⟨3, "Unrelated"⟩]
      [⟨"u1", "Stage"⟩] [⟨"u2", "FOH"⟩] [] = [1, 2] := by
  constructor
  · intro kts cs ps ls
    show delete_tags_calls true kts
      (cs ++ ps ++ ls.map (fun l => l.layer)) = _
    unfold delete_tags_calls
    have harg : (fun tag : KumaTag =>
        if delete_flag true (cs ++ ps ++ ls.map (fun l => l.layer)) tag then
          some tag.id else none) =
        (fun tag : KumaTag =>
          if (cs ++ ps ++ ls.map (fun l => l.layer)).any
              (fun m => tag.name == m.name) then some tag.id else none) :=
      funext fun tag => by rw [delete_flag_eq_any]
    rw [harg, filterMap_ite]
  · rfl

/-- Claim C9, code-bug record — connection-failure atomicity fails: when
the `UptimeKumaApi` constructor succeeds but `api.login(...)` raises, the
exception is caught *after* `api` was assigned, so the guard
`if not api: return` does not fire and the mutation loop runs anyway (here:
the delete call for tag id 7 is attempted, first conjunct).  Only a
constructor failure leaves `api = None` and aborts as the claim demands
(second conjunct). -/
theorem claim_C9_code_bug :
    run_api_delete_tags ⟨true, false⟩ false [⟨7, "t"⟩] [] [] [] = [7] ∧
    run_api_delete_tags ⟨false, false⟩ false [⟨7, "t"⟩] [] [] [] = [] :=
  ⟨rfl, rfl⟩

/-- Claim C10 — implicit empty-uuid identity collapse: a fetched monitor
whose `description` is missing or empty gets uuid `""`; a desired fixture
whose uuid is the empty string (with a resolvable IPv4) then matches the
first description-less actual monitor: `add_monitor` is `False`, no
creation call is issued for the fixture, and that monitor's id and tag list
become the attachment baseline. -/
theorem claim_C10_empty_uuid (nm : Option String) (mid : Option Nat)
    (tg : List String) (f : Fixture) (m : KumaFixture)
    (kfs1 kfs2 : List KumaFixture)
    (hf : f.uuid = "") (hurl : (resolve_url f).isSome = true)
    (hm : m.uuid = "") (h1 : ∀ k ∈ kfs1, k.uuid ≠ "") :
    (KumaFixture.ofData nm mid none tg).uuid = "" ∧
    (KumaFixture.ofData nm mid (some "") tg).uuid = "" ∧
    monitor_decision (kfs1 ++ m :: kfs2) f = ⟨false, some m.id, m.tags⟩ ∧
    monitor_call_for (kfs1 ++ m :: kfs2) f = none := by
  have hfind : (kfs1 ++ m :: kfs2).find? (fun kf => f.uuid == kf.uuid) =
      some m := by
    rw [List.find?_append]
    have hleft : kfs1.find? (fun kf => f.uuid == kf.uuid) = none := by
      rw [List.find?_eq_none]
      intro k hk
      simp only [hf]
      intro hb
      exact h1 k hk (by simpa using (beq_iff_eq.mp (by simpa using hb)).symm)
    rw [hleft, List.find?_cons_of_pos]
    · rfl
    · simp [hf, hm]
  have hdec : monitor_decision (kfs1 ++ m :: kfs2) f =
      ⟨false, some m.id, m.tags⟩ := by
    unfold monitor_decision
    rw [hfind]
  refine ⟨rfl, rfl, hdec, ?_⟩
  obtain ⟨url, hurl2⟩ := Option.isSome_iff_exists.mp hurl
  unfold monitor_call_for
  rw [hurl2, hdec]
  rfl

/-- Witness for `claim_C10_empty_uuid` at a concrete input: a desired
fixture with uuid "" and ipv4 10.1.1.1, actual monitors led by an unrelated
monitor with a real uuid, then a description-less monitor (id 9, one tag
"T"), then a second description-less monitor; the first description-less
monitor is matched and no creation call is issued. -/
theorem claim_C10_empty_uuid_witness :
    (⟨"", "fx", none, none, ⟨[⟨some "10.1.1.1"⟩], []⟩⟩ : Fixture).uuid = "" ∧
    (resolve_url ⟨"", "fx", none, none, ⟨[⟨some "10.1.1.1"⟩], []⟩⟩).isSome = true ∧
    (⟨"stray", 9, "", ["T"]⟩ : KumaFixture).uuid = "" ∧
    (∀ k ∈ [(⟨"m1", 5, "uuid-x", []⟩ : KumaFixture)], k.uuid ≠ "") ∧
    ((KumaFixture.ofData (some "a") (some 1) none ["t"]).uuid = "" ∧
      (KumaFixture.ofData (some "a") (some 1) (some "") ["t"]).uuid = "" ∧
      monitor_decision
        ([⟨"m1", 5, "uuid-x", []⟩] ++ ⟨"stray", 9, "", ["T"]⟩ ::
          [⟨"m2", 6, "", []⟩])
        ⟨"", "fx", none, none, ⟨[⟨some "10.1.1.1"⟩], []⟩⟩ =
        ⟨false, some 9, ["T"]⟩ ∧
      monitor_call_for
        ([⟨"m1", 5, "uuid-x", []⟩] ++ ⟨"stray", 9, "", ["T"]⟩ ::
          [⟨"m2", 6, "", []⟩])
        ⟨"", "fx", none, none, ⟨[⟨some "10.1.1.1"⟩], []⟩⟩ = none) :=
  ⟨rfl, rfl, rfl, by decide,
    claim_C10_empty_uuid (some "a") (some 1) ["t"]
      ⟨"", "fx", none, none, ⟨[⟨some "10.1.1.1"⟩], []⟩⟩
      ⟨"stray", 9, "", ["T"]⟩
      [⟨"m1", 5, "uuid-x", []⟩] [⟨"m2", 6, "", []⟩]
      rfl rfl rfl (by decide)⟩

/-- Witness for `claim_C8_no_network_skip`: a source fixture with an empty
network list, dropped from the middle of a two-element source list, leaves
the merge result unchanged. -/
theorem claim_C8_no_network_skip_witness :
    get_ipv4_network ⟨"N", "no-net", none, none, ⟨[], [⟨1, 5⟩]⟩⟩ = none ∧
    merger [⟨"A", "src", none, none, ⟨[⟨some "10.0.0.9"⟩], [⟨1, 5⟩]⟩⟩,
            ⟨"N", "no-net", none, none, ⟨[], [⟨1, 5⟩]⟩⟩]
        [⟨"B", "tgt", none, none, ⟨[], [⟨1, 5⟩]⟩⟩] =
      merger [⟨"A", "src", none, none, ⟨[⟨some "10.0.0.9"⟩], [⟨1, 5⟩]⟩⟩]
        [⟨"B", "tgt", none, none, ⟨[], [⟨1, 5⟩]⟩⟩] := by
  refine ⟨rfl, ?_⟩
  exact claim_C8_no_network_skip ⟨"N", "no-net", none, none, ⟨[], [⟨1, 5⟩]⟩⟩ rfl
    [⟨"A", "src", none, none, ⟨[⟨some "10.0.0.9"⟩], [⟨1, 5⟩]⟩⟩] [] _

end MvrKuma
